import Mathlib

/-!
Shallow embedding of `src/tools/convert_mymaps_csv.py` (repository
`dmnbraulio/mapa-clientes`): the CSV geo-converter that extracts
coordinates from WKT `POINT (lon lat)` strings, repairs mojibake,
splits the composite description field, and assembles the clean table.

Modelling conventions:
- Python `str` values are `Text := List Char`; a cell of the dataframe
  (read with `dtype=str`) is `Option Text`, `none` standing for NaN.
- Python numbers produced by `float(...)` are modelled as exact
  rationals (`ℚ`); the claims under study concern ordering and absence
  of coordinates, not floating-point rounding.
- `str.lower` / `str.upper` / whitespace classes are modelled on the
  ASCII and Latin-1 range, which covers every keyword and literal the
  script uses; exotic Unicode case mappings are out of scope.
- Fallible operations (regex search, `float`, `encode`/`decode`)
  return `Option`; a caught exception is `none`.
-/

namespace MapaClientes

/-- Python text, as a list of Unicode scalar values. -/
abbrev Text := List Char

/-- Coerce a Lean string literal to the `Text` representation. -/
def T (s : String) : Text := s.data

/-- A Python value that may or may not be a `str` (e.g. a NaN read from a
CSV cell): the converter's helpers all begin with `isinstance(x, str)`. -/
inductive PyVal where
  | str : Text → PyVal
  | nonStr : PyVal
deriving DecidableEq

/-- ASCII decimal digit. -/
def isDigit (c : Char) : Bool := '0' ≤ c && c ≤ '9'

/-- A character of the regex class `[\-0-9]`. -/
def isNumChar (c : Char) : Bool := c == '-' || isDigit c

/-- Python whitespace (`\s`, `str.strip()`), ASCII range. -/
def isSpaceChar (c : Char) : Bool :=
  c == ' ' || c == Char.ofNat 9 || c == Char.ofNat 10 || c == Char.ofNat 13
    || c == Char.ofNat 11 || c == Char.ofNat 12

/-- The regex class `[-–—]` (hyphen, en dash, em dash). -/
def isDashChar (c : Char) : Bool := c == '-' || c == '–' || c == '—'

/-- Drop characters satisfying `p` from both ends (Python `str.strip`). -/
def stripBoth (p : Char → Bool) (l : Text) : Text :=
  ((l.dropWhile p).reverse.dropWhile p).reverse

/-- `str.strip()` with no argument: strip whitespace. -/
def pyStrip (l : Text) : Text := stripBoth isSpaceChar l

/-- The single-quote character (written by code point). -/
def squoteChar : Char := Char.ofNat 39

/-- `l₁.isPrefixOf l₂`-style prefix removal: `some rest` on success. -/
def stripPrefixL : Text → Text → Option Text
  | [], s => some s
  | _ :: _, [] => none
  | c :: cs, d :: ds => if c = d then stripPrefixL cs ds else none

/-- Maximal run of characters satisfying `p`: `(run, rest)`. -/
def takeRun (p : Char → Bool) (l : Text) : Text × Text :=
  (l.takeWhile p, l.dropWhile p)

/-- Match the regex fragment `[\-0-9]+(?:\.[0-9]+)?` at the head of `s`,
returning the matched text and the remainder.  The greedy runs are
maximal-munch; for this pattern that is equivalent to Python's
backtracking search (shrinking a run always puts a run character, never
the required follower, at the front of the remainder). -/
def matchNum (s : Text) : Option (Text × Text) :=
  let (run, rest) := takeRun isNumChar s
  if run = [] then none
  else
    match rest with
    | '.' :: r2 =>
      let (frac, rest2) := takeRun isDigit r2
      if frac = [] then some (run, rest)
      else some (run ++ '.' :: frac, rest2)
    | _ => some (run, rest)

/-- The part of the POINT pattern after the opening parenthesis:
`\s*NUM\s+NUM\s*\)` with `NUM` the signed-number fragment; returns the
two captured number texts. -/
def parseTwoNums (r3 : Text) : Option (Text × Text) :=
  match matchNum (r3.dropWhile isSpaceChar) with
  | none => none
  | some (n1, r5) =>
    let (sp, r6) := takeRun isSpaceChar r5
    if sp = [] then none
    else
      match matchNum r6 with
      | none => none
      | some (n2, r7) =>
        match r7.dropWhile isSpaceChar with
        | ')' :: _ => some (n1, n2)
        | _ => none

/-- Match the whole regex
`POINT\s*\(\s*([\-0-9]+(?:\.[0-9]+)?)\s+([\-0-9]+(?:\.[0-9]+)?)\s*\)`
anchored at the head of `s`, returning the two captured number texts. -/
def matchPointAt (s : Text) : Option (Text × Text) :=
  match stripPrefixL (T "POINT") s with
  | none => none
  | some r1 =>
    match r1.dropWhile isSpaceChar with
    | '(' :: r3 => parseTwoNums r3
    | _ => none

/-- `re.search`: try the anchored match at every position, left to right. -/
def searchPoint : Text → Option (Text × Text)
  | [] => matchPointAt []
  | c :: rest =>
    match matchPointAt (c :: rest) with
    | some r => some r
    | none => searchPoint rest

/-- Value of a digit string (most significant first). -/
def digitsVal (l : Text) : ℕ :=
  l.foldl (fun a c => 10 * a + (c.toNat - 48)) 0

/-- Python `float` on an unsigned text drawn from `[0-9]*(\.[0-9]*)?`:
requires at least one digit overall and no stray characters.  The value
is built with `mkRat` (integer part scaled plus fractional digits over a
power of ten), the exact rational the decimal literal denotes. -/
def decOfNumText (s : Text) : Option ℚ :=
  let intP := s.takeWhile isDigit
  let rest := s.dropWhile isDigit
  match rest with
  | [] => if intP = [] then none else some (mkRat (digitsVal intP) 1)
  | '.' :: fr =>
    if fr.all isDigit && (!intP.isEmpty || !fr.isEmpty) then
      some (mkRat (digitsVal intP * 10 ^ fr.length + digitsVal fr) (10 ^ fr.length))
    else none
  | _ => none

/-- Python `float` on a text drawn from `[\-0-9]+(?:\.[0-9]+)?`
(the only shapes the regex capture groups can produce): a leading `-`
negates; any other `-`, or the absence of digits, raises (⇒ `none`). -/
def floatOfNumText (s : Text) : Option ℚ :=
  match s with
  | '-' :: rest => (decOfNumText rest).map Neg.neg
  | _ => decOfNumText s

/-- `extract_lon_lat_from_wkt` from `src/tools/convert_mymaps_csv.py`:
strip whitespace and quotes, `re.search` the POINT pattern, parse both
captures with `float`, and return `(lat, lon)` — i.e. the two captured
numbers swapped.  Any failure yields `none` (the Python `(None, None)`). -/
def extract_lon_lat_from_wkt : PyVal → Option (ℚ × ℚ)
  | PyVal.nonStr => none
  | PyVal.str s =>
    let t := stripBoth (· == squoteChar) (stripBoth (· == '"') (pyStrip s))
    match searchPoint t with
    | none => none
    | some (n1, n2) =>
      match floatOfNumText n1, floatOfNumText n2 with
      | some lon, some lat => some (lat, lon)
      | _, _ => none

/-! ### `fix_mojibake_text`: Latin-1 re-encode / UTF-8 re-decode -/

/-- `str.encode('latin-1')`: one byte per character, fails
(`UnicodeEncodeError`) when any code point exceeds `0xFF`. -/
def latin1Encode (s : Text) : Option (List ℕ) :=
  if s.all (fun c => c.toNat ≤ 0xFF) then some (s.map Char.toNat) else none

/-- UTF-8 continuation byte `10xxxxxx`. -/
def isContByte (b : ℕ) : Bool := 0x80 ≤ b && b < 0xC0

/-- Strict UTF-8 decoding (`bytes.decode('utf-8')`): rejects stray
continuation bytes, truncated sequences, overlong encodings, surrogate
code points and values above `0x10FFFF` — any such error is `none`. -/
def utf8Decode : List ℕ → Option Text
  | [] => some []
  | b :: rest =>
    if b < 0x80 then (utf8Decode rest).map (Char.ofNat b :: ·)
    else if 0xC2 ≤ b && b ≤ 0xDF then
      match rest with
      | b2 :: rest2 =>
        if isContByte b2 then
          (utf8Decode rest2).map (Char.ofNat ((b - 0xC0) * 0x40 + (b2 - 0x80)) :: ·)
        else none
      | [] => none
    else if 0xE0 ≤ b && b ≤ 0xEF then
      match rest with
      | b2 :: b3 :: rest2 =>
        if isContByte b2 && isContByte b3 then
          let v := (b - 0xE0) * 0x1000 + (b2 - 0x80) * 0x40 + (b3 - 0x80)
          if 0x800 ≤ v && !(0xD800 ≤ v && v ≤ 0xDFFF) then
            (utf8Decode rest2).map (Char.ofNat v :: ·)
          else none
        else none
      | _ => none
    else if 0xF0 ≤ b && b ≤ 0xF4 then
      match rest with
      | b2 :: b3 :: b4 :: rest2 =>
        if isContByte b2 && isContByte b3 && isContByte b4 then
          let v := (b - 0xF0) * 0x40000 + (b2 - 0x80) * 0x1000
                     + (b3 - 0x80) * 0x40 + (b4 - 0x80)
          if 0x10000 ≤ v && v ≤ 0x10FFFF then
            (utf8Decode rest2).map (Char.ofNat v :: ·)
          else none
        else none
      | _ => none
    else none

/-- The `s.encode('latin-1').decode('utf-8')` round trip; `none` when
either step raises. -/
def latin1Utf8RoundTrip (s : Text) : Option Text :=
  (latin1Encode s).bind utf8Decode

/-- String branch of `fix_mojibake_text`: when the text shows a telltale
mojibake character (`Ã` or `Â`), try the round trip; on failure of the
`try` block, return the text unchanged. -/
def fixStr (s : Text) : Text :=
  if 'Ã' ∈ s ∨ 'Â' ∈ s then (latin1Utf8RoundTrip s).getD s else s

/-- `fix_mojibake_text` from `src/tools/convert_mymaps_csv.py`:
non-`str` values are returned as-is. -/
def fix_mojibake_text : PyVal → PyVal
  | PyVal.nonStr => PyVal.nonStr
  | PyVal.str s => PyVal.str (fixStr s)

/-! ### `split_standard_description` -/

/-- `re.sub(r'\\s*[-\u2013\u2014]\\s*', ' - ', s)`, one scanning step per unit
of fuel: at each position a match is a (possibly empty) whitespace run
immediately followed by a dash character and a trailing whitespace run,
replaced by the canonical `" - "`; scanning resumes after the match, and
positions with no match emit one character.  (For this pattern the
greedy runs admit no alternative match, so this scan is exactly
`re.sub`.)  Every step consumes at least one character, so `s.length`
units of fuel always suffice. -/
def normSepF : ℕ → Text → Text
  | 0, s => s
  | _ + 1, [] => []
  | fuel + 1, c :: rest =>
    match (c :: rest).dropWhile isSpaceChar with
    | d :: r2 =>
      if isDashChar d then ' ' :: '-' :: ' ' :: normSepF fuel (r2.dropWhile isSpaceChar)
      else c :: normSepF fuel rest
    | [] => c :: rest

/-- The separator normalizer at its adequate fuel. -/
def normSep (s : Text) : Text := normSepF s.length s

/-- `s.split(' - ')`: split on the literal three-character separator,
leftmost and non-overlapping. -/
def splitDashSep : Text → List Text
  | ' ' :: '-' :: ' ' :: rest => [] :: splitDashSep rest
  | c :: rest =>
    match splitDashSep rest with
    | h :: t => (c :: h) :: t
    | [] => [[c]]
  | [] => [[]]

/-- `' - '.join(parts)`. -/
def joinSep (l : List Text) : Text := List.intercalate (T " - ") l

/-- The placeholder field `'x'`. -/
def xT : Text := ['x']

/-- The `while len(parts) < 5: parts.append('x')` padding loop, in
closed form: append `'x'` until the list has five entries. -/
def padToFive (parts : List Text) : List Text :=
  parts ++ List.replicate (5 - parts.length) xT

/-- `split_standard_description` from `src/tools/convert_mymaps_csv.py`:
empty or non-`str` input gives five placeholders; otherwise repair
mojibake, normalize dash separators, split on `' - '`, strip each part,
fold segments beyond the fourth back into the fifth field, and pad. -/
def split_standard_description : PyVal → List Text
  | PyVal.nonStr => [xT, xT, xT, xT, xT]
  | PyVal.str desc =>
    if pyStrip desc = [] then [xT, xT, xT, xT, xT]
    else
      let d1 := fixStr desc
      let dnorm := normSep (pyStrip d1)
      let parts := (splitDashSep dnorm).map pyStrip
      let parts2 :=
        if 5 < parts.length then parts.take 4 ++ [joinSep (parts.drop 4)]
        else parts
      padToFive parts2

/-! ### Dataframe model and column detection

The dataframe read by `pd.read_csv(input_path, dtype=str, ...)` is a
header list plus rows of cells; a cell is `none` for NaN (missing
value) and `some t` for the string `t`.  `read_csv` mangles duplicate
header names, so header lists of interest are `Nodup`. -/

/-- One dataframe cell. -/
abbrev Cell := Option Text

/-- The loaded dataframe. -/
structure Table where
  headers : List Text
  rows : List (List Cell)
deriving DecidableEq

/-- `df[c]` as a list of cells: locate the (first) index of header `c`
and project every row there.  (Used only with headers present in the
table; a missing name yields `[]`.) -/
def Table.col (t : Table) (c : Text) : List Cell :=
  match t.headers.indexOf? c with
  | some i => t.rows.map (fun r => r.getD i none)
  | none => []

/-- `str.lower` on one character, modelled on the ASCII and Latin-1
range (all keywords and literals used by the script are in range). -/
def pyLowerChar (c : Char) : Char :=
  if 'A' ≤ c && c ≤ 'Z' then Char.ofNat (c.toNat + 32)
  else if 0xC0 ≤ c.toNat && c.toNat ≤ 0xDE && c.toNat ≠ 0xD7 then Char.ofNat (c.toNat + 32)
  else c

/-- `str.lower`. -/
def pyLower (t : Text) : Text := t.map pyLowerChar

/-- `str.upper` on one character (ASCII range; only the letters of
`'POINT'` matter to the script). -/
def pyUpperChar (c : Char) : Char :=
  if 'a' ≤ c && c ≤ 'z' then Char.ofNat (c.toNat - 32) else c

/-- `str.upper`. -/
def pyUpper (t : Text) : Text := t.map pyUpperChar

/-- Insert into an association list keeping the position of an existing
key but replacing its value — exactly how a Python `dict` built by
comprehension treats a repeated key. -/
def insertKV (l : List (Text × Text)) (k v : Text) : List (Text × Text) :=
  match l with
  | [] => [(k, v)]
  | kv :: t => if kv.1 = k then (k, v) :: t else kv :: insertKV t k v

/-- `cols_lower = {c.lower(): c for c in df.columns}`: iteration order is
first occurrence of each distinct lowered name; the stored original name
is the last column that lowered to it. -/
def colsLower (hs : List Text) : List (Text × Text) :=
  hs.foldl (fun acc c => insertKV acc (pyLower c) c) []

/-- Python `needle in hay` on strings: contiguous substring test. -/
def hasSub (needle : Text) : Text → Bool
  | [] => needle.isEmpty
  | c :: t => needle.isPrefixOf (c :: t) || hasSub needle t

/-- `astype(str)` on one cell: NaN prints as the string `'nan'`. -/
def cellNanStr (c : Cell) : Text := c.getD (T "nan")

/-- `fillna('').astype(str)` on one cell. -/
def cellFillStr (c : Cell) : Text := c.getD []

/-- The name-keyword phase of the WKT column search:
`'wkt' in name or 'point' in name or 'geometry' in name` over the keys
of `cols_lower`, first hit wins. -/
def wktColByName (cl : List (Text × Text)) : Option (Text × Text) :=
  cl.find? (fun kv => hasSub (T "wkt") kv.1 || hasSub (T "point") kv.1
                        || hasSub (T "geometry") kv.1)

/-- The sample-scan fallback: first column whose first five non-null
values contain one that, stripped and uppercased, starts with `POINT`. -/
def wktColByScan (df : Table) : Option Text :=
  df.headers.find? (fun c =>
    (((df.col c).filterMap id).take 5).any
      (fun s => (T "POINT").isPrefixOf (pyUpper (pyStrip s))))

/-- The full WKT column search of `convert_mymaps_csv`. -/
def wktColOf (df : Table) : Option Text :=
  match wktColByName (colsLower df.headers) with
  | some kv => some kv.2
  | none => wktColByScan df

/-- The `nombre` column search: lowered name equal (`key in [...]`) to
one of the four keywords; otherwise the first column other than the WKT
column, or `None` when there is no other column. -/
def nombreColOf (df : Table) (wkt_col : Text) : Option Text :=
  match (colsLower df.headers).find?
      (fun kv => [T "nombre", T "name", T "title", T "placename"].contains kv.1) with
  | some kv => some kv.2
  | none => (df.headers.filter (fun c => c ≠ wkt_col)).head?

/-- The description column search: lowered name containing one of the
keyword fragments (note `'desc' in key` subsumes the others). -/
def descrFoundOf (cl : List (Text × Text)) : Option (Text × Text) :=
  cl.find? (fun kv => hasSub (T "descrip") kv.1 || hasSub (T "description") kv.1
                        || hasSub (T "descripción") kv.1 || hasSub (T "desc") kv.1)

/-- The address keyword list of the source
(`['direccion','address','addr','street']`). -/
def direccionKeys : List Text := [T "direccion", T "address", T "addr", T "street"]

/-- The `direccion` column search: lowered name equal (`key in [...]`)
to one of the four keywords. -/
def direccionColOf (cl : List (Text × Text)) : Option Text :=
  (cl.find? (fun kv => direccionKeys.contains kv.1)).map Prod.snd

/-- The output dataframe `final`, column by column, in the serialized
order `final_cols_order`. -/
structure FinalTable where
  codigoZona : List Text
  zonaNombre : List Text
  codigoCliente : List Text
  nombreCliente : List Text
  botica : List Text
  referencias : List Text
  direccion : List Text
  lat : List (Option ℚ)
  lng : List (Option ℚ)
  descripcionOriginal : List Text
deriving DecidableEq

/-- Outcome of one converter run.  `fatal` is the designed abort
(`sys.exit(1)` after a single printed error) — it happens before
`to_csv`, so no output file exists; `crash` is an uncaught exception
(also before `to_csv`); `ok` carries the dataframe written to the
output file. -/
inductive ConvResult where
  | fatal : ConvResult
  | crash : ConvResult
  | ok : FinalTable → ConvResult
deriving DecidableEq

/-- The dataframe's column store: `df[c]` as mutable state.  The
converter performs in-place column assignments, so the success path
below threads an explicit store of type `Text → List Cell` through
them. -/
def Table.store (df : Table) : Text → List Cell := fun c => df.col c

/-- One in-place column assignment `df[c] = v`: later reads of name `c`
see `v`, all other names are untouched (aliasing by name equality, as in
pandas). -/
def updateStore (st : Text → List Cell) (c : Text) (v : List Cell) : Text → List Cell :=
  fun c' => if c' = c then v else st c'

/-- The description column name together with the store after the
fallback assignment: the located column leaves the store unchanged,
otherwise `df['__descr_missing__'] = ''` materializes a column of empty
strings under that name. -/
def descrSetup (df : Table) : Text × (Text → List Cell) :=
  match descrFoundOf (colsLower df.headers) with
  | some kv => (kv.2, df.store)
  | none => (T "__descr_missing__",
      updateStore df.store (T "__descr_missing__")
        (List.replicate df.rows.length (some [])))

/-- One mojibake repair pass over a column, in place:
`df[c] = df[c].astype(str).apply(fix_mojibake_text)`. -/
def repairColumn (st : Text → List Cell) (c : Text) : Text → List Cell :=
  updateStore st c ((st c).map (fun cell => some (fixStr (cellNanStr cell))))

/-- The output dataframe built on the success path of
`convert_mymaps_csv`, with the source's sequential in-place updates
threaded through the store: `Lat`/`Lng` are extracted from the WKT
column before any repair; the name column is repaired first, then the
description column — reading the post-name-repair state, so when the
name fallback aliases the description column that column is repaired
twice; the parsed fields, `Botica`, `DescripcionOriginal` and
`Direccion` all read the final store (their extra `astype(str)` /
`fillna` are no-ops on repaired string columns, and `astype(str)` turns
an untouched column's NaN into `'nan'`).  The five parsed fields'
`fillna('x')` is a no-op since parsing always yields strings. -/
def mkFinal (df : Table) (wkt_col nombre_col : Text) : FinalTable :=
  let dsc := descrSetup df
  let st1 := repairColumn dsc.2 nombre_col
  let st2 := repairColumn st1 dsc.1
  let latlngs := ((dsc.2 wkt_col).map cellFillStr).map
    (fun s => extract_lon_lat_from_wkt (PyVal.str s))
  let parsed := (st2 dsc.1).map
    (fun c => split_standard_description (PyVal.str (cellNanStr c)))
  { codigoZona := parsed.map (fun p => p.getD 0 xT)
    zonaNombre := parsed.map (fun p => p.getD 1 xT)
    codigoCliente := parsed.map (fun p => p.getD 2 xT)
    nombreCliente := parsed.map (fun p => p.getD 3 xT)
    botica := (st2 nombre_col).map (fun c => pyStrip (cellNanStr c))
    referencias := parsed.map (fun p => p.getD 4 xT)
    direccion :=
      match direccionColOf (colsLower df.headers) with
      | some c => (st2 c).map cellNanStr
      | none => List.replicate df.rows.length []
    lat := latlngs.map (fun o => o.map Prod.fst)
    lng := latlngs.map (fun o => o.map Prod.snd)
    descripcionOriginal := (st2 dsc.1).map cellNanStr }

/-- `convert_mymaps_csv(input_path, output_path)` on the loaded
dataframe.  Column assignments to `df` (`Lat`, `Lng`, the mojibake
overwrites, and the `__descr_missing__` fallback column of empty
strings) are modelled by the corresponding value lists above; `df[None]`
on a missing name column raises `KeyError` (⇒ `crash`, before any
output is written); the success path writes `mkFinal`. -/
def convert_mymaps_csv (df : Table) : ConvResult :=
  match wktColOf df with
  | none => ConvResult.fatal
  | some wkt_col =>
    match nombreColOf df wkt_col with
    | none => ConvResult.crash
    | some nombre_col => ConvResult.ok (mkFinal df wkt_col nombre_col)

/-- The module-level entry: `sys.exit(1)` when the input file is absent
(`none`), otherwise convert the loaded dataframe. -/
def runScript : Option Table → ConvResult
  | none => ConvResult.fatal
  | some df => convert_mymaps_csv df

/-! ### Statement-level definitions -/

/-- The text of a signed decimal numeral: optional minus sign, integer
digits `ds`, and (when `fs` is nonempty) a fractional part `.fs`. -/
def numText (sgn : Bool) (ds fs : Text) : Text :=
  (if sgn then ['-'] else []) ++ ds ++ (if fs = [] then [] else '.' :: fs)

/-- The exact rational value denoted by that numeral. -/
def numVal (sgn : Bool) (ds fs : Text) : ℚ :=
  let a : ℚ :=
    match fs with
    | [] => mkRat (digitsVal ds) 1
    | _ :: _ => mkRat (digitsVal ds * 10 ^ fs.length + digitsVal fs) (10 ^ fs.length)
  if sgn then -a else a

/-- A WKT string of the exact form `POINT (lon lat)`. -/
def mkPointStr (lonT latT : Text) : Text :=
  T "POINT (" ++ lonT ++ T " " ++ latT ++ T ")"

/-- A table whose fourth column name strictly contains the keyword
`address` without being equal to it. -/
def homeAddressTable : Table :=
  ⟨[T "WKT", T "name", T "desc", T "home_address"],
   [[some (T "POINT (1 2)"), some (T "Shop"), some (T "A - B"),
     some (T "Av. Lima 123")]]⟩

/-- A table whose description cell contains mojibake. -/
def mojibakeTable : Table :=
  ⟨[T "WKT", T "name", T "descripcion"],
   [[some (T "POINT (1 2)"), some (T "Shop"), some (T "descripciÃ³n")]]⟩

/-- Doubly mojibake-encoded text: the code points
`[0xC3, 0x83, 0xC2, 0xB3]`, i.e. `ó` after two UTF-8-as-Latin-1
mis-decodings; one repair pass yields `Ã³`, a second yields `ó`. -/
def doubleMojibake : Text :=
  [Char.ofNat 0xC3, Char.ofNat 0x83, Char.ofNat 0xC2, Char.ofNat 0xB3]

/-- A two-column table where the name-column fallback aliases the
description column, so the converter repairs that column twice. -/
def aliasTable : Table :=
  ⟨[T "WKT", T "descripcion"],
   [[some (T "POINT (1 2)"), some doubleMojibake]]⟩

/-- Projection: the `Direccion` column of a successful run. -/
def convDireccion : ConvResult → Option (List Text)
  | ConvResult.ok ft => some ft.direccion
  | _ => none

/-- Projection: the `DescripcionOriginal` column of a successful run. -/
def convDescrOrig : ConvResult → Option (List Text)
  | ConvResult.ok ft => some ft.descripcionOriginal
  | _ => none

/-! ## Theorems -/

/-- Claim C6: for inputs with no parsable POINT pattern — the empty
string, `"POINT()"`, `"LINESTRING (0 0, 1 1)"`, and any non-string
value — `extract_lon_lat_from_wkt` returns the absent pair (`none`);
absence is the normal return value of the total function, not an
exception. -/
theorem c6_extract_absent_on_malformed :
    extract_lon_lat_from_wkt (PyVal.str (T "")) = none ∧
    extract_lon_lat_from_wkt (PyVal.str (T "POINT()")) = none ∧
    extract_lon_lat_from_wkt (PyVal.str (T "LINESTRING (0 0, 1 1)")) = none ∧
    extract_lon_lat_from_wkt PyVal.nonStr = none := by
  decide

/-- Claim C9: the POINT pattern is found by substring search
(`re.search`), so non-POINT geometries whose text contains a
`POINT (num num)` substring — `"MULTIPOINT (1 2)"`, or arbitrary prefix
text before `POINT (3 4)` — yield a coordinate pair instead of absent. -/
theorem c9_extract_substring_search :
    extract_lon_lat_from_wkt (PyVal.str (T "MULTIPOINT (1 2)"))
      = some (mkRat 2 1, mkRat 1 1) ∧
    extract_lon_lat_from_wkt (PyVal.str (T "zzz POINT (3 4) zzz"))
      = some (mkRat 4 1, mkRat 3 1) := by
  decide

/-- Claim C7: on text containing neither `Ã` nor `Â`,
`fix_mojibake_text` returns its input unchanged, hence is idempotent on
such already-correct text. -/
theorem c7_repairEncoding_id_on_clean (s : Text)
    (h1 : 'Ã' ∉ s) (h2 : 'Â' ∉ s) :
    fix_mojibake_text (PyVal.str s) = PyVal.str s ∧
    fix_mojibake_text (fix_mojibake_text (PyVal.str s)) = PyVal.str s := by
  have hfix : fixStr s = s := by
    unfold fixStr
    rw [if_neg]
    rintro (h | h)
    · exact h1 h
    · exact h2 h
  constructor
  · simp [fix_mojibake_text, hfix]
  · simp [fix_mojibake_text, hfix]

/-- Witness for C7 at the concrete clean text `"hola"`. -/
theorem c7_witness :
    fix_mojibake_text (PyVal.str (T "hola")) = PyVal.str (T "hola") ∧
    fix_mojibake_text (fix_mojibake_text (PyVal.str (T "hola")))
      = PyVal.str (T "hola") :=
  c7_repairEncoding_id_on_clean (T "hola") (by decide) (by decide)

/-- Claim C8: on text containing `Ã` or `Â`, `fix_mojibake_text`
attempts the Latin-1 re-encode / UTF-8 re-decode round trip, and when
that round trip fails it returns the original text unchanged (the
`except` branch); as a total function it never raises, and non-string
values also pass through untouched. -/
theorem c8_repairEncoding_fallback (s : Text) (h : 'Ã' ∈ s ∨ 'Â' ∈ s) :
    fix_mojibake_text (PyVal.str s) = PyVal.str ((latin1Utf8RoundTrip s).getD s) ∧
    (latin1Utf8RoundTrip s = none → fix_mojibake_text (PyVal.str s) = PyVal.str s) ∧
    fix_mojibake_text PyVal.nonStr = PyVal.nonStr := by
  have hfix : fixStr s = (latin1Utf8RoundTrip s).getD s := by
    unfold fixStr
    rw [if_pos h]
  refine ⟨by simp [fix_mojibake_text, hfix], fun hn => ?_, rfl⟩
  simp [fix_mojibake_text, hfix, hn]

/-- Witness for C8 at `"Ã"`: the lone byte `0xC3` is not valid UTF-8,
so the round trip fails and the text passes through unchanged. -/
theorem c8_witness :
    fix_mojibake_text (PyVal.str (T "Ã")) = PyVal.str ((latin1Utf8RoundTrip (T "Ã")).getD (T "Ã")) ∧
    (latin1Utf8RoundTrip (T "Ã") = none →
      fix_mojibake_text (PyVal.str (T "Ã")) = PyVal.str (T "Ã")) ∧
    fix_mojibake_text PyVal.nonStr = PyVal.nonStr :=
  c8_repairEncoding_fallback (T "Ã") (by decide)

/-- The padded, possibly truncated part list always has five fields. -/
theorem padToFive_truncate_length (parts : List Text) :
    (padToFive (if 5 < parts.length then parts.take 4 ++ [joinSep (parts.drop 4)]
                else parts)).length = 5 := by
  unfold padToFive
  by_cases h : 5 < parts.length
  · simp [h]
    omega
  · simp [h]
    omega

/-- Claim C4: `split_standard_description` always returns exactly five
ordered fields: non-string or blank input gives five `"x"`
placeholders, fewer than five segments are padded with `"x"`, and more
than five are folded — segments five onward are rejoined with `" - "`
into the fifth field, as in the seven-segment example. -/
theorem c4_split_always_five_fields :
    (∀ d : PyVal, (split_standard_description d).length = 5) ∧
    split_standard_description (PyVal.str (T "A - B - C - D - E - F - G"))
      = [T "A", T "B", T "C", T "D", T "E - F - G"] ∧
    split_standard_description (PyVal.str (T "A - B")) = [T "A", T "B", xT, xT, xT] ∧
    split_standard_description (PyVal.str (T "")) = [xT, xT, xT, xT, xT] ∧
    split_standard_description PyVal.nonStr = [xT, xT, xT, xT, xT] := by
  refine ⟨?_, by decide, by decide, by decide, by decide⟩
  intro d
  match d with
  | PyVal.nonStr => rfl
  | PyVal.str s =>
    unfold split_standard_description
    by_cases h : pyStrip s = []
    · simp [h]
    · simp only [h, if_neg, if_false]
      exact padToFive_truncate_length _

/-- Claim C5: when the input file is absent (module-level existence
check, `sys.exit(1)`) or no geometry-like column is found by either the
name-keyword match or the sample-value scan (`wktColOf df = none`,
`sys.exit(1)` inside the converter), the run ends in the single fatal
abort; the `fatal` outcome carries no output table because `to_csv` is
only reached on the success path, i.e. no partial output is written. -/
theorem c5_fatal_abort (inp : Option Table)
    (h : inp = none ∨ ∃ df, inp = some df ∧ wktColOf df = none) :
    runScript inp = ConvResult.fatal := by
  rcases h with h | ⟨df, rfl, hdf⟩
  · rw [h]; rfl
  · show convert_mymaps_csv df = ConvResult.fatal
    unfold convert_mymaps_csv
    rw [hdf]

/-- Witness for C5 at a concrete table with no geometry-like column
(neither by header keyword nor by sampled values). -/
theorem c5_witness :
    runScript (some ⟨[T "foo"], [[some (T "bar")]]⟩) = ConvResult.fatal :=
  c5_fatal_abort (some ⟨[T "foo"], [[some (T "bar")]]⟩)
    (Or.inr ⟨⟨[T "foo"], [[some (T "bar")]]⟩, rfl, by decide⟩)

/-! ### Column-detection lemmas (for C3 and C2) -/

/-- Membership after a `dict`-style insert: either an old entry or the
inserted pair. -/
theorem insertKV_mem {l : List (Text × Text)} {k v : Text} {kv : Text × Text}
    (h : kv ∈ insertKV l k v) : kv ∈ l ∨ kv = (k, v) := by
  induction l with
  | nil =>
    right
    simpa [insertKV] using h
  | cons hd tl ih =>
    unfold insertKV at h
    by_cases hk : hd.1 = k
    · rw [if_pos hk] at h
      rcases List.mem_cons.mp h with h | h
      · right; exact h
      · left; exact List.mem_cons_of_mem _ h
    · rw [if_neg hk] at h
      rcases List.mem_cons.mp h with h | h
      · left; exact h ▸ List.mem_cons_self _ _
      · rcases ih h with h | h
        · left; exact List.mem_cons_of_mem _ h
        · right; exact h

/-- Every entry of `cols_lower` is `(lowered name, original name)` with
the original name a column of the table. -/
theorem colsLower_mem {hs : List Text} {kv : Text × Text}
    (h : kv ∈ colsLower hs) : kv.1 = pyLower kv.2 ∧ kv.2 ∈ hs := by
  suffices H : ∀ (l : List Text) (acc : List (Text × Text)),
      (∀ kv' ∈ acc, kv'.1 = pyLower kv'.2 ∧ kv'.2 ∈ hs) →
      (∀ c ∈ l, c ∈ hs) →
      ∀ kv' ∈ l.foldl (fun a c => insertKV a (pyLower c) c) acc,
        kv'.1 = pyLower kv'.2 ∧ kv'.2 ∈ hs by
    exact H hs [] (by simp) (fun c hc => hc) kv h
  intro l
  induction l with
  | nil => intro acc hacc _ kv' h'; exact hacc kv' h'
  | cons c t ih =>
    intro acc hacc hl kv' h'
    refine ih _ ?_ (fun x hx => hl x (List.mem_cons_of_mem _ hx)) kv' h'
    intro kv'' h''
    rcases insertKV_mem h'' with h'' | h''
    · exact hacc kv'' h''
    · subst h''; exact ⟨rfl, hl c (List.mem_cons_self _ _)⟩

/-- Counterexample to claim C3 as stated: in a table whose column
`home_address` lowercases to a name that strictly contains the keyword
`address` (but does not equal it), the address search finds nothing, and
the conversion leaves `Direccion` empty instead of using that column's
value. -/
theorem c3_counterexample :
    hasSub (T "address") (pyLower (T "home_address")) = true ∧
    pyLower (T "home_address") ≠ T "address" ∧
    direccionColOf (colsLower homeAddressTable.headers) = none ∧
    Table.col homeAddressTable (T "home_address") = [some (T "Av. Lima 123")] ∧
    convDireccion (convert_mymaps_csv homeAddressTable) = some [[]] := by
  decide

/-- Claim C3 (amended): geometry and description columns are detected
by substring containment of a keyword fragment in the lowercased name
(first matching entry of the lowered-name map), but the address (and
label) columns are detected by exact equality of the lowercased name
with a keyword: the address search fails precisely when no lowered
column name equals one of `direccion`, `address`, `addr`, `street`, and
any column it returns has its lowercased name equal to one of them — a
name that merely contains `address` is never selected. -/
theorem c3_detection_modes :
    (∀ hs : List Text,
      direccionColOf (colsLower hs) = none ↔
        ∀ kv ∈ colsLower hs, kv.1 ∉ direccionKeys) ∧
    (∀ (hs : List Text) (c : Text),
      direccionColOf (colsLower hs) = some c →
        c ∈ hs ∧ pyLower c ∈ direccionKeys) ∧
    (∀ (hs : List Text) (kv : Text × Text),
      descrFoundOf (colsLower hs) = some kv →
        kv.2 ∈ hs ∧ (hasSub (T "descrip") (pyLower kv.2) = true ∨
          hasSub (T "description") (pyLower kv.2) = true ∨
          hasSub (T "descripción") (pyLower kv.2) = true ∨
          hasSub (T "desc") (pyLower kv.2) = true)) ∧
    (∀ (hs : List Text) (kv : Text × Text),
      wktColByName (colsLower hs) = some kv →
        kv.2 ∈ hs ∧ (hasSub (T "wkt") (pyLower kv.2) = true ∨
          hasSub (T "point") (pyLower kv.2) = true ∨
          hasSub (T "geometry") (pyLower kv.2) = true)) := by
  refine ⟨?_, ?_, ?_, ?_⟩
  · intro hs
    unfold direccionColOf
    rw [Option.map_eq_none', List.find?_eq_none]
    constructor
    · intro H kv hkv hmem
      exact H kv hkv (List.elem_iff.mpr hmem)
    · intro H kv hkv hcont
      exact H kv hkv (List.elem_iff.mp hcont)
  · intro hs c h
    unfold direccionColOf at h
    rcases Option.map_eq_some'.mp h with ⟨kv, hfind, hsnd⟩
    have hmem := List.mem_of_find?_eq_some hfind
    have hp := List.find?_some hfind
    obtain ⟨hlow, hcol⟩ := colsLower_mem hmem
    subst hsnd
    exact ⟨hcol, hlow ▸ List.elem_iff.mp hp⟩
  · intro hs kv h
    have hmem := List.mem_of_find?_eq_some h
    have hp := List.find?_some h
    obtain ⟨hlow, hcol⟩ := colsLower_mem hmem
    refine ⟨hcol, ?_⟩
    rw [← hlow]
    simpa [Bool.or_eq_true, or_assoc] using hp
  · intro hs kv h
    unfold wktColByName at h
    have hmem := List.mem_of_find?_eq_some h
    have hp := List.find?_some h
    obtain ⟨hlow, hcol⟩ := colsLower_mem hmem
    refine ⟨hcol, ?_⟩
    rw [← hlow]
    simpa [Bool.or_eq_true, or_assoc] using hp

/-- Witness for C3 (amended) at a concrete header list: the exact name
`Address` is found, lies among the headers, and lowers to a keyword. -/
theorem c3_witness :
    (T "Address") ∈ [T "WKT", T "Address"] ∧
    pyLower (T "Address") ∈ direccionKeys :=
  c3_detection_modes.2.1 [T "WKT", T "Address"] (T "Address") (by decide)

/-! ### Row-preservation lemmas (for C2 and C10) -/

/-- Claim C10: the `DescripcionOriginal` output column holds the
description text after `fix_mojibake_text`, not the raw source cell —
the converter overwrites the description column in place before copying
it into the output.  The universal part tracks the source's sequential
in-place overwrites exactly: row `i` of `DescripcionOriginal` is
`fix_mojibake_text` of row `i`'s raw description cell (as a string),
applied twice when the located name column aliases the description
column (both overwrites hit the same column) and once otherwise.  The
concrete parts exhibit both situations: the non-aliased table emits the
raw `descripciÃ³n` as the once-repaired `descripción`, and the aliased
table emits a doubly mis-encoded cell as the twice-repaired `ó`. -/
theorem c10_descripcion_original_repaired :
    (∀ (df : Table) (w nc : Text) (kv : Text × Text),
      df.headers.Nodup → 2 ≤ df.headers.length → wktColOf df = some w →
      nombreColOf df w = some nc →
      descrFoundOf (colsLower df.headers) = some kv →
      ∃ ft, convert_mymaps_csv df = ConvResult.ok ft ∧
        ∀ (i : ℕ) (cell : Cell), (df.col kv.2)[i]? = some cell →
          ft.descripcionOriginal[i]? =
            some (if nc = kv.2 then fixStr (fixStr (cellNanStr cell))
              else fixStr (cellNanStr cell))) ∧
    Table.col mojibakeTable (T "descripcion") = [some (T "descripciÃ³n")] ∧
    convDescrOrig (convert_mymaps_csv mojibakeTable) = some [T "descripción"] ∧
    T "descripción" ≠ T "descripciÃ³n" ∧
    Table.col aliasTable (T "descripcion") = [some doubleMojibake] ∧
    convDescrOrig (convert_mymaps_csv aliasTable) = some [T "ó"] ∧
    fixStr doubleMojibake = T "Ã³" := by
  refine ⟨?_, by decide, by decide, by decide, by decide, by decide, by decide⟩
  intro df w nc kv hnd h2 hw hnc hd
  have hconv : convert_mymaps_csv df = ConvResult.ok (mkFinal df w nc) := by
    unfold convert_mymaps_csv
    rw [hw]
    show (match nombreColOf df w with
      | none => ConvResult.crash
      | some nombre_col => ConvResult.ok (mkFinal df w nombre_col))
        = ConvResult.ok (mkFinal df w nc)
    rw [hnc]
  refine ⟨mkFinal df w nc, hconv, ?_⟩
  intro i cell hcell
  have hds : descrSetup df = (kv.2, df.store) := by
    unfold descrSetup
    rw [hd]
  show ((repairColumn (repairColumn (descrSetup df).2 nc) (descrSetup df).1
      (descrSetup df).1).map cellNanStr)[i]? = _
  rw [hds]
  show ((repairColumn (repairColumn df.store nc) kv.2 kv.2).map cellNanStr)[i]? = _
  have e2 : repairColumn (repairColumn df.store nc) kv.2 kv.2
      = (repairColumn df.store nc kv.2).map
          (fun cell => some (fixStr (cellNanStr cell))) := by
    show (if kv.2 = kv.2 then (repairColumn df.store nc kv.2).map
        (fun cell => some (fixStr (cellNanStr cell)))
      else repairColumn df.store nc kv.2) = _
    rw [if_pos rfl]
  rw [e2]
  by_cases halias : nc = kv.2
  · have e1 : repairColumn df.store nc kv.2
        = (df.col kv.2).map (fun cell => some (fixStr (cellNanStr cell))) := by
      show (if kv.2 = nc then (df.store nc).map
          (fun cell => some (fixStr (cellNanStr cell)))
        else df.store kv.2) = _
      rw [if_pos halias.symm, halias]
      rfl
    rw [e1, if_pos halias]
    simp [List.getElem?_map, hcell, cellNanStr]
  · have e1 : repairColumn df.store nc kv.2 = df.col kv.2 := by
      show (if kv.2 = nc then (df.store nc).map
          (fun cell => some (fixStr (cellNanStr cell)))
        else df.store kv.2) = _
      rw [if_neg (fun h => halias h.symm)]
      rfl
    rw [e1, if_neg halias]
    simp [List.getElem?_map, hcell, cellNanStr]

/-- Witness for C10's universal part at the aliased table: the label
fallback picks the description column, so the description is repaired
twice. -/
theorem c10_witness :
    ∃ ft, convert_mymaps_csv aliasTable = ConvResult.ok ft ∧
      ∀ (i : ℕ) (cell : Cell),
        (aliasTable.col (T "descripcion", T "descripcion").2)[i]? = some cell →
        ft.descripcionOriginal[i]? =
          some (if T "descripcion" = (T "descripcion", T "descripcion").2 then
              fixStr (fixStr (cellNanStr cell))
            else fixStr (cellNanStr cell)) :=
  c10_descripcion_original_repaired.1 aliasTable (T "WKT") (T "descripcion")
    (T "descripcion", T "descripcion") (by decide) (by decide) (by decide)
    (by decide) (by decide)

/-! ### Scanning lemmas for the POINT regex (for C1) -/

theorem takeWhile_append_all {p : Char → Bool} {l1 : Text} (l2 : Text)
    (h : ∀ c ∈ l1, p c = true) :
    (l1 ++ l2).takeWhile p = l1 ++ l2.takeWhile p := by
  induction l1 with
  | nil => simp
  | cons c t ih =>
    simp only [List.cons_append, List.takeWhile_cons, h c (List.mem_cons_self _ _),
      if_true]
    rw [ih (fun x hx => h x (List.mem_cons_of_mem _ hx))]

theorem dropWhile_append_all {p : Char → Bool} {l1 : Text} (l2 : Text)
    (h : ∀ c ∈ l1, p c = true) :
    (l1 ++ l2).dropWhile p = l2.dropWhile p := by
  induction l1 with
  | nil => simp
  | cons c t ih =>
    simp only [List.cons_append, List.dropWhile_cons, h c (List.mem_cons_self _ _),
      if_true]
    exact ih (fun x hx => h x (List.mem_cons_of_mem _ hx))

theorem takeWhile_all {p : Char → Bool} {l : Text} (h : ∀ c ∈ l, p c = true) :
    l.takeWhile p = l := by
  have := @takeWhile_append_all p l [] h
  simpa using this

theorem dropWhile_all {p : Char → Bool} {l : Text} (h : ∀ c ∈ l, p c = true) :
    l.dropWhile p = [] := by
  have := @dropWhile_append_all p l [] h
  simpa using this

theorem takeWhile_cons_neg {p : Char → Bool} {c : Char} (l : Text)
    (hc : p c = false) : (c :: l).takeWhile p = [] := by
  simp [List.takeWhile_cons, hc]

theorem dropWhile_cons_neg {p : Char → Bool} {c : Char} (l : Text)
    (hc : p c = false) : (c :: l).dropWhile p = c :: l := by
  simp [List.dropWhile_cons, hc]

/-- A maximal run over `l1 ++ c :: rest` with all of `l1` in the class
and `c` outside it is exactly `l1`. -/
theorem takeRun_append {p : Char → Bool} {l1 : Text} {c : Char} {rest : Text}
    (h1 : ∀ x ∈ l1, p x = true) (hc : p c = false) :
    takeRun p (l1 ++ c :: rest) = (l1, c :: rest) := by
  unfold takeRun
  rw [takeWhile_append_all _ h1, dropWhile_append_all _ h1,
    takeWhile_cons_neg _ hc, dropWhile_cons_neg _ hc, List.append_nil]

theorem stripPrefixL_self_append (p z : Text) : stripPrefixL p (p ++ z) = some z := by
  induction p with
  | nil => rfl
  | cons c t ih => simp [stripPrefixL, ih]

/-- `strip` is the identity when neither end character is in the
stripped class. -/
theorem stripBoth_keep {p : Char → Bool} {c d : Char} (m : Text)
    (hc : p c = false) (hd : p d = false) :
    stripBoth p (c :: (m ++ [d])) = c :: (m ++ [d]) := by
  unfold stripBoth
  rw [dropWhile_cons_neg _ hc]
  rw [show (c :: (m ++ [d])).reverse = d :: (m.reverse ++ [c]) by simp]
  rw [dropWhile_cons_neg _ hd]
  simp

/-- Digits are in the `[\-0-9]` class. -/
theorem isNumChar_of_isDigit {c : Char} (h : isDigit c = true) :
    isNumChar c = true := by
  unfold isNumChar
  rw [h]
  simp

/-- Every character of the signed-digits part of a numeral is in the
`[\-0-9]` class. -/
theorem signDigits_all_numChar {sgn : Bool} {ds : Text}
    (hd : ∀ x ∈ ds, isDigit x = true) :
    ∀ x ∈ (if sgn then ['-'] else []) ++ ds, isNumChar x = true := by
  intro x hx
  rcases List.mem_append.mp hx with hx | hx
  · cases sgn
    · simp at hx
    · simp at hx
      subst hx
      decide
  · exact isNumChar_of_isDigit (hd x hx)

/-- `matchNum`, stated over the scans it performs (definitional). -/
theorem matchNum_eq (s : Text) :
    matchNum s =
      if s.takeWhile isNumChar = [] then none
      else
        match s.dropWhile isNumChar with
        | '.' :: r2 =>
          if r2.takeWhile isDigit = [] then
            some (s.takeWhile isNumChar, s.dropWhile isNumChar)
          else some (s.takeWhile isNumChar ++ '.' :: r2.takeWhile isDigit,
            r2.dropWhile isDigit)
        | _ => some (s.takeWhile isNumChar, s.dropWhile isNumChar) := rfl

/-- The number matcher consumes exactly a signed decimal numeral when
the following character is outside the class and is not a decimal
point. -/
theorem matchNum_numText {sgn : Bool} {ds fs : Text} {c : Char} {rest : Text}
    (hds : ds ≠ []) (hd : ∀ x ∈ ds, isDigit x = true)
    (hf : ∀ x ∈ fs, isDigit x = true)
    (hc1 : isNumChar c = false) (hc2 : c ≠ '.') :
    matchNum (numText sgn ds fs ++ c :: rest) = some (numText sgn ds fs, c :: rest) := by
  have hsd := @signDigits_all_numChar sgn ds hd
  have hsdne : (if sgn then ['-'] else []) ++ ds ≠ [] := by
    intro h
    exact hds (List.append_eq_nil.mp h).2
  have hcdig : isDigit c = false := by
    by_contra hdig
    rw [isNumChar_of_isDigit (by revert hdig; cases isDigit c <;> simp)] at hc1
    exact Bool.true_eq_false.mp hc1
  cases fs with
  | nil =>
    have hshape : numText sgn ds [] ++ c :: rest
        = ((if sgn then ['-'] else []) ++ ds) ++ c :: rest := by
      simp [numText]
    rw [hshape, matchNum_eq,
      takeWhile_append_all _ hsd, dropWhile_append_all _ hsd,
      takeWhile_cons_neg _ hc1, dropWhile_cons_neg _ hc1, List.append_nil,
      if_neg hsdne]
    have : numText sgn ds [] = (if sgn then ['-'] else []) ++ ds := by simp [numText]
    rw [← this]
    split
    next heq =>
      injection heq with h1 _
      exact absurd h1 hc2
    next => rfl
  | cons f ft =>
    have hshape : numText sgn ds (f :: ft) ++ c :: rest
        = ((if sgn then ['-'] else []) ++ ds) ++ '.' :: ((f :: ft) ++ c :: rest) := by
      simp [numText]
    have hdotnum : isNumChar '.' = false := by decide
    rw [hshape, matchNum_eq,
      takeWhile_append_all _ hsd, dropWhile_append_all _ hsd,
      takeWhile_cons_neg _ hdotnum, dropWhile_cons_neg _ hdotnum, List.append_nil,
      if_neg hsdne]
    show (if ((f :: ft) ++ c :: rest).takeWhile isDigit = [] then _ else _) = _
    rw [takeWhile_append_all _ hf, dropWhile_append_all _ hf,
      takeWhile_cons_neg _ hcdig, dropWhile_cons_neg _ hcdig, List.append_nil]
    rw [if_neg (by simp)]
    have : numText sgn ds (f :: ft)
        = ((if sgn then ['-'] else []) ++ ds) ++ '.' :: (f :: ft) := by
      simp [numText]
    rw [← this]

/-- `decOfNumText`, stated over the scans it performs (definitional). -/
theorem decOfNumText_eq (s : Text) :
    decOfNumText s =
      match s.dropWhile isDigit with
      | [] =>
        if s.takeWhile isDigit = [] then none
        else some (mkRat (digitsVal (s.takeWhile isDigit)) 1)
      | '.' :: fr =>
        if fr.all isDigit && (!(s.takeWhile isDigit).isEmpty || !fr.isEmpty) then
          some (mkRat (digitsVal (s.takeWhile isDigit) * 10 ^ fr.length + digitsVal fr)
            (10 ^ fr.length))
        else none
      | _ => none := rfl

/-- `float` accepts the unsigned part of a well-formed numeral and
returns its exact value. -/
theorem decOf_numText {ds fs : Text} (hds : ds ≠ [])
    (hd : ∀ x ∈ ds, isDigit x = true) (hf : ∀ x ∈ fs, isDigit x = true) :
    decOfNumText (ds ++ (if fs = [] then [] else '.' :: fs)) =
      some (match fs with
        | [] => mkRat (digitsVal ds) 1
        | _ :: _ =>
          mkRat (digitsVal ds * 10 ^ fs.length + digitsVal fs) (10 ^ fs.length)) := by
  cases fs with
  | nil =>
    rw [if_pos rfl, List.append_nil, decOfNumText_eq, dropWhile_all hd,
      takeWhile_all hd]
    show (if ds = [] then none else some (mkRat (digitsVal ds) 1))
      = some (mkRat (digitsVal ds) 1)
    rw [if_neg hds]
  | cons f ft =>
    rw [if_neg (by simp)]
    have hdot : isDigit '.' = false := by decide
    rw [decOfNumText_eq, takeWhile_append_all _ hd, dropWhile_append_all _ hd,
      takeWhile_cons_neg _ hdot, dropWhile_cons_neg _ hdot, List.append_nil]
    show (if (f :: ft).all isDigit && (!ds.isEmpty || !(f :: ft).isEmpty) then
        some (mkRat (digitsVal ds * 10 ^ (f :: ft).length + digitsVal (f :: ft))
          (10 ^ (f :: ft).length))
      else none) = _
    have hall : (f :: ft).all isDigit = true := List.all_eq_true.mpr hf
    have hne : ds.isEmpty = false := by
      cases ds
      · exact absurd rfl hds
      · rfl
    rw [hall, hne]
    rfl

/-- `float` on a list not starting with a minus sign skips the negation
branch. -/
theorem floatOfNumText_cons_ne {d : Char} {rest : Text} (h : d ≠ '-') :
    floatOfNumText (d :: rest) = decOfNumText (d :: rest) := by
  unfold floatOfNumText
  split
  next heq =>
    injection heq with h1 _
    exact absurd h1 h
  next => rfl

/-- `float` parses every well-formed signed decimal numeral to its
exact rational value. -/
theorem floatOf_numText {sgn : Bool} {ds fs : Text} (hds : ds ≠ [])
    (hd : ∀ x ∈ ds, isDigit x = true) (hf : ∀ x ∈ fs, isDigit x = true) :
    floatOfNumText (numText sgn ds fs) = some (numVal sgn ds fs) := by
  cases sgn with
  | true =>
    have hshape : numText true ds fs
        = '-' :: (ds ++ (if fs = [] then [] else '.' :: fs)) := by
      simp [numText]
    rw [hshape]
    show (decOfNumText (ds ++ (if fs = [] then [] else '.' :: fs))).map Neg.neg = _
    rw [decOf_numText hds hd hf]
    cases fs <;> rfl
  | false =>
    cases ds with
    | nil => exact absurd rfl hds
    | cons d dt =>
      have hdne : d ≠ '-' := by
        have hdig := hd d (List.mem_cons_self _ _)
        intro he
        rw [he] at hdig
        exact absurd hdig (by decide)
      have hshape : numText false (d :: dt) fs
          = (d :: dt) ++ (if fs = [] then [] else '.' :: fs) := by
        simp [numText]
      rw [hshape]
      rw [show (d :: dt) ++ (if fs = [] then [] else '.' :: fs)
          = d :: (dt ++ (if fs = [] then [] else '.' :: fs)) from rfl]
      rw [floatOfNumText_cons_ne hdne]
      rw [show d :: (dt ++ (if fs = [] then [] else '.' :: fs))
          = (d :: dt) ++ (if fs = [] then [] else '.' :: fs) from rfl]
      rw [decOf_numText hds hd hf]
      cases fs <;> rfl

/-- A well-formed numeral starts with a class character (`-` or a
digit). -/
theorem numText_head {sgn : Bool} {ds : Text} (fs : Text) (hds : ds ≠ [])
    (hd : ∀ x ∈ ds, isDigit x = true) :
    ∃ c t, numText sgn ds fs = c :: t ∧ isNumChar c = true := by
  cases sgn with
  | true =>
    exact ⟨'-', ds ++ (if fs = [] then [] else '.' :: fs), by simp [numText], by decide⟩
  | false =>
    cases ds with
    | nil => exact absurd rfl hds
    | cons d dt =>
      exact ⟨d, dt ++ (if fs = [] then [] else '.' :: fs), by simp [numText],
        isNumChar_of_isDigit (hd d (List.mem_cons_self _ _))⟩

/-- A `[\-0-9]` character is not whitespace. -/
theorem not_space_of_numChar {c : Char} (h : isNumChar c = true) :
    isSpaceChar c = false := by
  cases hsp : isSpaceChar c
  · rfl
  · exfalso
    unfold isSpaceChar at hsp
    simp only [Bool.or_eq_true, beq_iff_eq] at hsp
    rcases hsp with ((((h1 | h1) | h1) | h1) | h1) | h1 <;>
      (subst h1; exact absurd h (by decide))

/-- The inner parser consumes `NUM NUM)` for two well-formed numerals
separated by one space. -/
theorem parseTwoNums_template {s1 : Bool} {d1 f1 : Text} {s2 : Bool} {d2 f2 : Text}
    (hd1 : d1 ≠ []) (ha1 : ∀ c ∈ d1, isDigit c = true)
    (hf1 : ∀ c ∈ f1, isDigit c = true)
    (hd2 : d2 ≠ []) (ha2 : ∀ c ∈ d2, isDigit c = true)
    (hf2 : ∀ c ∈ f2, isDigit c = true) :
    parseTwoNums (numText s1 d1 f1 ++ ' ' :: (numText s2 d2 f2 ++ [')']))
      = some (numText s1 d1 f1, numText s2 d2 f2) := by
  obtain ⟨c1, t1, he1, hn1⟩ := @numText_head s1 d1 f1 hd1 ha1
  obtain ⟨c2, t2, he2, hn2⟩ := @numText_head s2 d2 f2 hd2 ha2
  have hdw1 : (numText s1 d1 f1 ++ ' ' :: (numText s2 d2 f2 ++ [')'])).dropWhile isSpaceChar
      = numText s1 d1 f1 ++ ' ' :: (numText s2 d2 f2 ++ [')']) := by
    rw [he1, List.cons_append]
    exact dropWhile_cons_neg _ (not_space_of_numChar hn1)
  unfold parseTwoNums
  rw [hdw1, matchNum_numText hd1 ha1 hf1 (by decide) (by decide)]
  show (if (' ' :: (numText s2 d2 f2 ++ [')'])).takeWhile isSpaceChar = [] then none
    else
      match matchNum ((' ' :: (numText s2 d2 f2 ++ [')'])).dropWhile isSpaceChar) with
      | none => none
      | some (n2, r7) =>
        match r7.dropWhile isSpaceChar with
        | ')' :: _ => some (numText s1 d1 f1, n2)
        | _ => none) = some (numText s1 d1 f1, numText s2 d2 f2)
  have hsp : isSpaceChar ' ' = true := by decide
  have hTW : (' ' :: (numText s2 d2 f2 ++ [')'])).takeWhile isSpaceChar
      = ' ' :: ((numText s2 d2 f2 ++ [')']).takeWhile isSpaceChar) := by
    rw [List.takeWhile_cons, if_pos hsp]
  have hDW : (' ' :: (numText s2 d2 f2 ++ [')'])).dropWhile isSpaceChar
      = (numText s2 d2 f2 ++ [')']).dropWhile isSpaceChar := by
    rw [List.dropWhile_cons, if_pos hsp]
  have hdw2 : (numText s2 d2 f2 ++ [')']).dropWhile isSpaceChar
      = numText s2 d2 f2 ++ [')'] := by
    rw [he2, List.cons_append]
    exact dropWhile_cons_neg _ (not_space_of_numChar hn2)
  rw [hTW, hDW, hdw2, if_neg (by simp)]
  rw [show numText s2 d2 f2 ++ [')'] = numText s2 d2 f2 ++ ')' :: [] from rfl,
    matchNum_numText hd2 ha2 hf2 (by decide) (by decide)]
  show (match ([')'] : Text).dropWhile isSpaceChar with
    | ')' :: _ => some (numText s1 d1 f1, numText s2 d2 f2)
    | _ => none) = some (numText s1 d1 f1, numText s2 d2 f2)
  rw [dropWhile_cons_neg _ (by decide)]
  rfl

/-- The anchored matcher accepts the exact template
`POINT (NUM NUM)`. -/
theorem matchPointAt_template {s1 : Bool} {d1 f1 : Text} {s2 : Bool} {d2 f2 : Text}
    (hd1 : d1 ≠ []) (ha1 : ∀ c ∈ d1, isDigit c = true)
    (hf1 : ∀ c ∈ f1, isDigit c = true)
    (hd2 : d2 ≠ []) (ha2 : ∀ c ∈ d2, isDigit c = true)
    (hf2 : ∀ c ∈ f2, isDigit c = true) :
    matchPointAt (mkPointStr (numText s1 d1 f1) (numText s2 d2 f2))
      = some (numText s1 d1 f1, numText s2 d2 f2) := by
  have hshape : mkPointStr (numText s1 d1 f1) (numText s2 d2 f2)
      = T "POINT" ++ (' ' :: '(' ::
          (numText s1 d1 f1 ++ ' ' :: (numText s2 d2 f2 ++ [')']))) := by
    have e1 : T "POINT (" = T "POINT" ++ [' ', '('] := rfl
    have e2 : T " " = [' '] := rfl
    have e3 : T ")" = [')'] := rfl
    simp [mkPointStr, e1, e2, e3, List.append_assoc]
  rw [hshape]
  unfold matchPointAt
  rw [stripPrefixL_self_append]
  show (match ((' ' :: '(' ::
      (numText s1 d1 f1 ++ ' ' :: (numText s2 d2 f2 ++ [')']))).dropWhile isSpaceChar) with
    | '(' :: r3 => parseTwoNums r3
    | _ => none) = some (numText s1 d1 f1, numText s2 d2 f2)
  rw [List.dropWhile_cons, if_pos (show isSpaceChar ' ' = true by decide),
    dropWhile_cons_neg _ (show isSpaceChar '(' = false by decide)]
  exact parseTwoNums_template hd1 ha1 hf1 hd2 ha2 hf2

/-- `re.search` succeeds immediately when the anchored match succeeds
at position zero. -/
theorem searchPoint_cons_of_match {c : Char} {rest : Text} {r : Text × Text}
    (h : matchPointAt (c :: rest) = some r) : searchPoint (c :: rest) = some r := by
  unfold searchPoint
  rw [h]

/-- Claim C1: for every string of the exact form `POINT (lon lat)` with
`lon` and `lat` signed decimal numerals (optional minus sign, integer
digits, optional fractional part), `extract_lon_lat_from_wkt` returns
the pair `(lat, lon)` — latitude first, i.e. the two numbers of the WKT
text swapped — with each numeral parsed to the exact rational it
denotes. -/
theorem c1_extract_swaps_lon_lat (s1 : Bool) (d1 f1 : Text) (s2 : Bool) (d2 f2 : Text)
    (hd1 : d1 ≠ []) (ha1 : ∀ c ∈ d1, isDigit c = true)
    (hf1 : ∀ c ∈ f1, isDigit c = true)
    (hd2 : d2 ≠ []) (ha2 : ∀ c ∈ d2, isDigit c = true)
    (hf2 : ∀ c ∈ f2, isDigit c = true) :
    extract_lon_lat_from_wkt
        (PyVal.str (mkPointStr (numText s1 d1 f1) (numText s2 d2 f2)))
      = some (numVal s2 d2 f2, numVal s1 d1 f1) := by
  have hshape : mkPointStr (numText s1 d1 f1) (numText s2 d2 f2)
      = 'P' :: ((T "OINT (" ++ numText s1 d1 f1 ++ ' ' :: numText s2 d2 f2) ++ [')']) := by
    have e1 : T "POINT (" = 'P' :: T "OINT (" := rfl
    have e2 : T " " = [' '] := rfl
    have e3 : T ")" = [')'] := rfl
    simp [mkPointStr, e1, e2, e3, List.append_assoc]
  have hstrip1 : pyStrip (mkPointStr (numText s1 d1 f1) (numText s2 d2 f2))
      = mkPointStr (numText s1 d1 f1) (numText s2 d2 f2) := by
    rw [hshape]
    exact stripBoth_keep _ (by decide) (by decide)
  have hstrip2 : stripBoth (· == '"') (mkPointStr (numText s1 d1 f1) (numText s2 d2 f2))
      = mkPointStr (numText s1 d1 f1) (numText s2 d2 f2) := by
    rw [hshape]
    exact stripBoth_keep _ (by decide) (by decide)
  have hstrip3 : stripBoth (· == squoteChar)
      (mkPointStr (numText s1 d1 f1) (numText s2 d2 f2))
      = mkPointStr (numText s1 d1 f1) (numText s2 d2 f2) := by
    rw [hshape]
    exact stripBoth_keep _ (by decide) (by decide)
  have hmp := @matchPointAt_template s1 d1 f1 s2 d2 f2 hd1 ha1 hf1 hd2 ha2 hf2
  have hsearch : searchPoint (mkPointStr (numText s1 d1 f1) (numText s2 d2 f2))
      = some (numText s1 d1 f1, numText s2 d2 f2) := by
    rw [hshape] at hmp ⊢
    exact searchPoint_cons_of_match hmp
  simp only [extract_lon_lat_from_wkt]
  rw [hstrip1, hstrip2, hstrip3, hsearch]
  show (match floatOfNumText (numText s1 d1 f1), floatOfNumText (numText s2 d2 f2) with
    | some lon, some lat => some (lat, lon)
    | _, _ => none) = some (numVal s2 d2 f2, numVal s1 d1 f1)
  rw [floatOf_numText hd1 ha1 hf1, floatOf_numText hd2 ha2 hf2]

/-- Witness for C1 at `POINT (-77.03 -12.05)`: the result is
`(-12.05, -77.03)`, latitude first. -/
theorem c1_witness :
    extract_lon_lat_from_wkt
        (PyVal.str (mkPointStr (numText true ['7', '7'] ['0', '3'])
          (numText true ['1', '2'] ['0', '5'])))
      = some (numVal true ['1', '2'] ['0', '5'], numVal true ['7', '7'] ['0', '3']) :=
  c1_extract_swaps_lon_lat true ['7', '7'] ['0', '3'] true ['1', '2'] ['0', '5']
    (by decide) (by decide) (by decide) (by decide) (by decide) (by decide)

end MapaClientes
